import Mathlib

/-!
Verification of the MIPP repository: a two-table persistence schema
(`users`, `predictions`, src/unnamed/part_000) and client-side JavaScript
(src/static/js/script.js) for form validation and prediction submission.

Part 1 embeds the persistence layer.  The repository contains only the SQL
schema; the access operations (`createUser`, `recordPrediction`,
`deleteUser`, `listPredictionsForUser`) are given by the specification's
contract, so they are modelled from the spec, with the constraints
(UNIQUE columns, FOREIGN KEY ... ON DELETE CASCADE) taken from the schema.

Part 2 embeds the client-side validators and the AJAX response handler as
pure functions.  JavaScript numbers are modelled as rationals (`Rat`) with
`none : Option _` playing the role of `NaN`; every comparison against
`NaN` is false, which the `js*` comparison helpers encode.
-/

namespace MIPP

/-- A row of the `users` table (schema src/unnamed/part_000, lines 2-9). -/
structure User where
  id : Nat
  username : String
  email : String
  password_hash : String
  is_admin : Bool
  created_at : Nat
deriving DecidableEq, Repr

/-- A row of the `predictions` table (schema src/unnamed/part_000, lines 12-24). -/
structure Prediction where
  id : Nat
  user_id : Nat
  age : Int
  gender : String
  bmi : Rat
  children : Int
  smoker : String
  region : String
  predicted_premium : Rat
  created_at : Nat
deriving DecidableEq, Repr

/-- The six prediction attributes submitted with an estimate request. -/
structure PredictionAttrs where
  age : Int
  gender : String
  bmi : Rat
  children : Int
  smoker : String
  region : String
deriving DecidableEq, Repr

/-- The relational store: both tables plus the AUTOINCREMENT counters. -/
structure Store where
  users : List User
  predictions : List Prediction
  next_user_id : Nat
  next_prediction_id : Nat
deriving DecidableEq, Repr

/-- The freshly created store: both tables empty, AUTOINCREMENT at 1. -/
def Store.empty : Store := ⟨[], [], 1, 1⟩

inductive CreateUserError where
  | duplicateUsername
  | duplicateEmail
deriving DecidableEq, Repr

inductive RecordPredictionError where
  | foreignKeyViolation
deriving DecidableEq, Repr

/-- Modelled from the spec: `createUser(username, email, passwordHash) ->
UserId | fails(DuplicateUsername | DuplicateEmail)`.  The operation itself is
not in the repository (only the schema is); the uniqueness checks realise the
`UNIQUE NOT NULL` constraints on `users.username` and `users.email`
(src/unnamed/part_000 lines 4-5).  On failure the store is returned
unchanged.  `now` is the CURRENT_TIMESTAMP default for `created_at`. -/
def createUser (username email password_hash : String) (now : Nat)
    (st : Store) : Except CreateUserError Nat × Store :=
  if st.users.any (fun u => u.username = username) then
    (.error .duplicateUsername, st)
  else if st.users.any (fun u => u.email = email) then
    (.error .duplicateEmail, st)
  else
    let u : User := ⟨st.next_user_id, username, email, password_hash, false, now⟩
    (.ok st.next_user_id,
      { st with users := st.users ++ [u], next_user_id := st.next_user_id + 1 })

/-- Modelled from the spec: `recordPrediction(userId, attributes,
predictedPremium) -> PredictionId | fails(ForeignKeyViolation if userId
unknown)`.  The existence check realises `FOREIGN KEY (user_id) REFERENCES
users (id)` (src/unnamed/part_000 line 23).  On failure the store is
returned unchanged: nothing is inserted. -/
def recordPrediction (user_id : Nat) (a : PredictionAttrs)
    (predicted_premium : Rat) (now : Nat) (st : Store) :
    Except RecordPredictionError Nat × Store :=
  if st.users.any (fun u => u.id = user_id) then
    let p : Prediction := ⟨st.next_prediction_id, user_id, a.age, a.gender,
      a.bmi, a.children, a.smoker, a.region, predicted_premium, now⟩
    (.ok st.next_prediction_id,
      { st with predictions := st.predictions ++ [p],
                next_prediction_id := st.next_prediction_id + 1 })
  else
    (.error .foreignKeyViolation, st)

/-- Modelled from the spec: `deleteUser(userId)` cascades deletion of that
user's predictions, realising `ON DELETE CASCADE` (src/unnamed/part_000
line 23). -/
def deleteUser (user_id : Nat) (st : Store) : Store :=
  { st with
    users := st.users.filter (fun u => u.id ≠ user_id),
    predictions := st.predictions.filter (fun p => p.user_id ≠ user_id) }

/-- Ordering of prediction rows by their `created_at` column. -/
def createdAtLe (p q : Prediction) : Prop := p.created_at ≤ q.created_at

instance : DecidableRel createdAtLe := fun p q => Nat.decLe p.created_at q.created_at

instance : IsTotal Prediction createdAtLe :=
  ⟨fun p q => Nat.le_total p.created_at q.created_at⟩

instance : IsTrans Prediction createdAtLe :=
  ⟨fun _ _ _ h h2 => Nat.le_trans h h2⟩

/-- Modelled from the spec: `listPredictionsForUser(userId,
orderBy=createdAt) -> ordered sequence of Prediction`.  The row selection is
the `predictions.user_id` lookup (index `idx_user_predictions`,
src/unnamed/part_000 line 27) and the ordering is by `created_at` (index
`idx_created_at`, line 28). -/
def listPredictionsForUser (user_id : Nat) (st : Store) : List Prediction :=
  List.insertionSort createdAtLe
    (st.predictions.filter (fun p => p.user_id = user_id))

/-- The store states reachable from the empty store by the four contract
operations. -/
inductive Reachable : Store → Prop where
  | init : Reachable Store.empty
  | createUserStep {st} (un em ph : String) (now : Nat) :
      Reachable st → Reachable (createUser un em ph now st).2
  | recordPredictionStep {st} (uid : Nat) (a : PredictionAttrs)
      (pp : Rat) (now : Nat) :
      Reachable st → Reachable (recordPrediction uid a pp now st).2
  | deleteUserStep {st} (uid : Nat) :
      Reachable st → Reachable (deleteUser uid st)

/-- Referential integrity: every prediction row references an existing user. -/
def refIntegrity (st : Store) : Prop :=
  ∀ p ∈ st.predictions, ∃ u ∈ st.users, u.id = p.user_id

/-- A concrete attribute set used by the witnesses. -/
def attrs0 : PredictionAttrs := ⟨30, "male", 25, 0, "no", "southwest"⟩

/-- A concrete store with one user (id 1) and one prediction, built by the
contract operations so that it is reachable. -/
def demoStore : Store :=
  (recordPrediction 1 attrs0 26000 5
    (createUser "alice" "alice@example.com" "h1" 0 Store.empty).2).2

/-- The single prediction row of `demoStore`. -/
def demoPrediction : Prediction :=
  ⟨1, 1, 30, "male", 25, 0, "no", "southwest", 26000, 5⟩

/-- The single users row of `demoStore`. -/
def demoUser : User := ⟨1, "alice", "alice@example.com", "h1", false, 0⟩

/-! ### Part 2: the client-side validators (src/static/js/script.js)

A form field's observable validation state: the `is-valid` / `is-invalid`
CSS classes, the text of the `.invalid-feedback` element (the empty string
when the element is absent or empty - `createFeedbackElement` creates it
with empty text), and the inline border colour set by `validateBMI`. -/

structure FieldState where
  is_valid : Bool
  is_invalid : Bool
  feedback : String
  borderColor : Option String
deriving DecidableEq, Repr

/-- A field with no validation classes, empty feedback, default border. -/
def st0 : FieldState := ⟨false, false, "", none⟩

/-- JavaScript `<` on a number that may be `NaN` (`none`): any comparison
with `NaN` is false. -/
def jsLtI : Option Int → Int → Bool
  | some a, b => a < b
  | none, _ => false

/-- JavaScript `>` against `NaN`-able left operand. -/
def jsGtI : Option Int → Int → Bool
  | some a, b => b < a
  | none, _ => false

/-- JavaScript `>=` against `NaN`-able left operand. -/
def jsGeI : Option Int → Int → Bool
  | some a, b => b ≤ a
  | none, _ => false

/-- JavaScript `<=` against `NaN`-able left operand. -/
def jsLeI : Option Int → Int → Bool
  | some a, b => a ≤ b
  | none, _ => false

/-- JavaScript `<` for doubles (modelled as rationals) with `NaN` as `none`. -/
def jsLtQ : Option Rat → Rat → Bool
  | some a, b => a < b
  | none, _ => false

/-- JavaScript `>` for doubles with `NaN` as `none`. -/
def jsGtQ : Option Rat → Rat → Bool
  | some a, b => b < a
  | none, _ => false

/-- JavaScript `>=` for doubles with `NaN` as `none`. -/
def jsGeQ : Option Rat → Rat → Bool
  | some a, b => b ≤ a
  | none, _ => false

/-- JavaScript `<=` for doubles with `NaN` as `none`. -/
def jsLeQ : Option Rat → Rat → Bool
  | some a, b => a ≤ b
  | none, _ => false

/-- `validateAge` (script.js lines 58-71).  `age` is the `parseInt` result
of the input's value (`none` = `NaN`). -/
def validateAge (age : Option Int) (st : FieldState) : FieldState :=
  if jsLtI age 18 || jsGtI age 100 then
    { st with is_invalid := true, is_valid := false,
              feedback := "Age must be between 18 and 100 years." }
  else if jsGeI age 18 && jsLeI age 100 then
    { st with is_valid := true, is_invalid := false, feedback := "" }
  else
    st

/-- `getBMICategory` (script.js lines 126-131). -/
def getBMICategory (bmi : Rat) : String :=
  if bmi < 18.5 then "Underweight"
  else if bmi < 25 then "Normal weight"
  else if bmi < 30 then "Overweight"
  else "Obese"

/-- `validateBMI` (script.js lines 74-98).  `bmi` is the `parseFloat`
result of the input's value (`none` = `NaN`).  The valid branch can only
run with `bmi = some b` (a `NaN` fails both guards), so passing
`bmi.getD 0` to `getBMICategory` is exact there. -/
def validateBMI (bmi : Option Rat) (st : FieldState) : FieldState :=
  if jsLtQ bmi 10 || jsGtQ bmi 50 then
    { st with is_invalid := true, is_valid := false,
              feedback := "BMI must be between 10 and 50." }
  else if jsGeQ bmi 10 && jsLeQ bmi 50 then
    { st with is_valid := true, is_invalid := false,
              feedback := getBMICategory (bmi.getD 0),
              borderColor := some (if jsLtQ bmi 18.5 then "#17a2b8"
                else if jsLtQ bmi 25 then "#28a745"
                else if jsLtQ bmi 30 then "#ffc107"
                else "#dc3545") }
  else
    st

/-- The ECMAScript whitespace and line-terminator characters matched by
the regex class `\s`. -/
def jsWhitespace (c : Char) : Bool :=
  decide (c ∈ ([' ', '\t', '\n', '\r', '\x0b', '\x0c', ' ', '﻿',
    ' ', ' ', ' ', ' ', ' ', ' ', ' ',
    ' ', ' ', ' ', ' ', ' ', ' ', ' ',
    ' ', ' ', '　'] : List Char))

/-- A character matched by the regex class `[^\s@]`. -/
def isAtomChar (c : Char) : Bool := !jsWhitespace c && !(c == '@')

/-- Matches `[^\s@]+$`: a non-empty all-atom tail. -/
def tailMatch (l : List Char) : Bool := !l.isEmpty && l.all isAtomChar

/-- Matches `\.[^\s@]+$`. -/
def dotTail : List Char → Bool
  | [] => false
  | c :: cs => c == '.' && tailMatch cs

/-- Matches `[^\s@]+\.[^\s@]+$` (every split point is tried, which is the
match semantics of the regex). -/
def domainMatch : List Char → Bool
  | [] => false
  | c :: cs => isAtomChar c && (dotTail cs || domainMatch cs)

/-- Matches `@[^\s@]+\.[^\s@]+$`. -/
def atDomain : List Char → Bool
  | [] => false
  | c :: cs => c == '@' && domainMatch cs

/-- Matches the whole email regex `^[^\s@]+@[^\s@]+\.[^\s@]+$` of
`validateEmail` (script.js line 103). -/
def emailMatch : List Char → Bool
  | [] => false
  | c :: cs => isAtomChar c && (atDomain cs || emailMatch cs)

/-- `validateEmail` (script.js lines 101-115). -/
def validateEmail (email : String) (st : FieldState) : FieldState :=
  if !emailMatch email.data then
    { st with is_invalid := true, is_valid := false,
              feedback := "Please enter a valid email address." }
  else
    { st with is_valid := true, is_invalid := false, feedback := "" }

/-- Value of a decimal digit character, `none` otherwise. -/
def decDigit (c : Char) : Option Nat :=
  if c.isDigit then some (c.toNat - '0'.toNat) else none

/-- Value of a hexadecimal digit character, `none` otherwise. -/
def hexDigit (c : Char) : Option Nat :=
  if c.isDigit then some (c.toNat - '0'.toNat)
  else if 'a' ≤ c ∧ c ≤ 'f' then some (c.toNat - 'a'.toNat + 10)
  else if 'A' ≤ c ∧ c ≤ 'F' then some (c.toNat - 'A'.toNat + 10)
  else none

/-- The longest digit run at the head of the list, as digit values. -/
def leadingDigits (f : Char → Option Nat) : List Char → List Nat
  | [] => []
  | c :: cs =>
    match f c with
    | some d => d :: leadingDigits f cs
    | none => []

/-- The number denoted by a digit-value list in the given base. -/
def digitsToNat (base : Nat) (ds : List Nat) : Nat :=
  ds.foldl (fun a d => a * base + d) 0

/-- An optional leading sign; `true` means negative. -/
def readSign : List Char → Bool × List Char
  | '-' :: r => (true, r)
  | '+' :: r => (false, r)
  | cs => (false, cs)

/-- JavaScript `parseInt(value)` with no radix argument: skip whitespace,
optional sign, optional `0x`/`0X` hex prefix, then the longest run of
digits; `NaN` (here `none`) when that run is empty.  Trailing characters
are ignored. -/
def parseIntJS (s : String) : Option Int :=
  let cs := s.data.dropWhile jsWhitespace
  let sr := readSign cs
  let hx : Bool × List Char :=
    match sr.2 with
    | '0' :: 'x' :: r => (true, r)
    | '0' :: 'X' :: r => (true, r)
    | r => (false, r)
  let ds := leadingDigits (if hx.1 then hexDigit else decDigit) hx.2
  if ds.isEmpty then none
  else
    let m : Int := Int.ofNat (digitsToNat (if hx.1 then 16 else 10) ds)
    some (if sr.1 then -m else m)

/-- JavaScript `parseFloat(value)` on finite decimal literals: skip
whitespace, optional sign, digits, optional `.` and fraction digits,
optional exponent; `NaN` (here `none`) when no digit is read.  Doubles are
modelled as exact rationals; the special literal `Infinity` is outside the
rational model and not covered. -/
def parseFloatJS (s : String) : Option Rat :=
  let cs := s.data.dropWhile jsWhitespace
  let sr := readSign cs
  let ip := leadingDigits decDigit sr.2
  let cs2 := sr.2.drop ip.length
  let fr : List Nat × List Char :=
    match cs2 with
    | '.' :: r => (leadingDigits decDigit r, r.drop (leadingDigits decDigit r).length)
    | r => ([], r)
  if ip.isEmpty && fr.1.isEmpty then none
  else
    let mant : Rat :=
      (digitsToNat 10 ip : Rat) + (digitsToNat 10 fr.1 : Rat) / ((10 : Rat) ^ fr.1.length)
    let ex : Int :=
      match fr.2 with
      | c :: r =>
        if c == 'e' || c == 'E' then
          let er := readSign r
          let eds := leadingDigits decDigit er.2
          if eds.isEmpty then 0
          else if er.1 then -(Int.ofNat (digitsToNat 10 eds))
          else Int.ofNat (digitsToNat 10 eds)
        else 0
      | [] => 0
    some ((if sr.1 then -1 else 1) * mant * (10 : Rat) ^ ex)

/-- A form control: its `name` attribute, current value, `required`
attribute and validation state. -/
structure Field where
  name : String
  value : String
  required : Bool
  state : FieldState
deriving DecidableEq, Repr

/-- JavaScript `String.prototype.trim()`: strips the ECMAScript whitespace
and line-terminator characters from both ends. -/
def jsTrim (s : String) : String :=
  String.mk (((s.data.dropWhile jsWhitespace).reverse.dropWhile jsWhitespace).reverse)

/-- JavaScript truthiness of the value returned by `validateField`
(`none` = `undefined`, which is falsy). -/
def truthy : Option Bool → Bool
  | some true => true
  | _ => false

/-- `validateField` (script.js lines 400-428): clears both validation
classes, flags an empty required field, then dispatches on the field name.
The age/bmi/email cases call the dedicated validator and fall through with
no `return` value, so the JS call returns `undefined` there (`none`). -/
def validateField (f : Field) : Option Bool × Field :=
  let value := jsTrim f.value
  let cleared : FieldState := { f.state with is_valid := false, is_invalid := false }
  if f.required && value == "" then
    (some false, { f with state := { cleared with is_invalid := true } })
  else if f.name == "age" then
    (none, { f with state := validateAge (parseIntJS f.value) cleared })
  else if f.name == "bmi" then
    (none, { f with state := validateBMI (parseFloatJS f.value) cleared })
  else if f.name == "email" then
    (none, { f with state := validateEmail f.value cleared })
  else if value == "" then
    (some true, { f with state := cleared })
  else
    (some true, { f with state := { cleared with is_valid := true } })

/-- The prediction POST of `submitPredictionAJAX`, carrying the form
snapshot it was sent from. -/
structure PostRequest where
  url : String
  form : List Field
deriving DecidableEq, Repr

/-- Modelled from the spec: the submit wiring of the prediction page (an
HTML template not included in the repository) runs `validateField` on every
form field and sends the POST to `/user/api/predict` only when every field
validated truthily - "Invalid fields are flagged for correction; the
submission is not sent while any required field is invalid." -/
def submitFlow (form : List Field) : Option PostRequest × List Field :=
  let rs := form.map validateField
  let form2 := rs.map Prod.snd
  if rs.all (fun r => truthy r.1) then
    (some ⟨"/user/api/predict", form2⟩, form2)
  else
    (none, form2)

/-- Replace the i-th element (no change when out of range). -/
def updateAt (i : Nat) (g : Field → Field) : List Field → List Field
  | [] => []
  | f :: fs =>
    match i with
    | 0 => g f :: fs
    | j + 1 => f :: updateAt j g fs

/-- An observable client action: typing into a field or submitting. -/
inductive ClientAct where
  | edit (i : Nat) (v : String)
  | submit

/-- One step of the client: an `input` event re-runs `validateField` on the
edited field (the listeners installed by `enableRealTimeValidation`,
script.js lines 383-397) and sends nothing; a submit runs the modelled
submit flow. -/
def clientStep (form : List Field) : ClientAct → Option PostRequest × List Field
  | .edit i v =>
      (none, updateAt i (fun f => (validateField { f with value := v }).2) form)
  | .submit => submitFlow form

/-- An alert shown by `showSuccessMessage` / `showErrorMessage`. -/
inductive Message where
  | success (text : String)
  | danger (text : String)
deriving DecidableEq, Repr

/-- The parsed JSON body of a `/user/api/predict` response; absent JSON
fields are `none`. -/
structure PredictResponse where
  success : Bool
  formatted_prediction : Option String
  error : Option String
deriving DecidableEq, Repr

/-- The outcome of the fetch: a parsed response, or a network/parse
failure that lands in the `catch` handler. -/
inductive FetchOutcome where
  | ok (data : PredictResponse)
  | networkError

/-- JS template-literal interpolation of a possibly-undefined value. -/
def jsInterp : Option String → String
  | some t => t
  | none => "undefined"

/-- JS `a || b` for a possibly-undefined string: `undefined` and the empty
string are falsy. -/
def jsOrDefault : Option String → String → String
  | some t, d => if t == "" then d else t
  | none, d => d

/-- `submitPredictionAJAX` (script.js lines 220-241), as a function from
the fetch outcome to the alert messages shown and the number of fetch
attempts made (the function performs exactly one fetch and never
retries). -/
def submitPredictionAJAX : FetchOutcome → List Message × Nat
  | .ok d =>
    if d.success then
      ([.success ("Predicted Premium: " ++ jsInterp d.formatted_prediction)], 1)
    else
      ([.danger (jsOrDefault d.error "Prediction failed")], 1)
  | .networkError => ([.danger "Network error occurred"], 1)

/-- A concrete single-field form used by the witnesses. -/
def demoForm : List Field := [⟨"children", "2", true, st0⟩]

/-- `demoForm` after validation: the field is flagged valid. -/
def demoForm2 : List Field := [⟨"children", "2", true, ⟨true, false, "", none⟩⟩]

theorem createUser_dupUsername (un em ph : String) (now : Nat) (st : Store)
    (h : st.users.any (fun u => u.username = un) = true) :
    createUser un em ph now st = (.error .duplicateUsername, st) := by
  unfold createUser
  rw [if_pos h]

theorem createUser_dupEmail (un em ph : String) (now : Nat) (st : Store)
    (h1 : ¬ st.users.any (fun u => u.username = un) = true)
    (h2 : st.users.any (fun u => u.email = em) = true) :
    createUser un em ph now st = (.error .duplicateEmail, st) := by
  unfold createUser
  rw [if_neg h1, if_pos h2]

theorem createUser_fresh (un em ph : String) (now : Nat) (st : Store)
    (h1 : ¬ st.users.any (fun u => u.username = un) = true)
    (h2 : ¬ st.users.any (fun u => u.email = em) = true) :
    createUser un em ph now st =
      (.ok st.next_user_id,
        { st with users := st.users ++ [⟨st.next_user_id, un, em, ph, false, now⟩],
                  next_user_id := st.next_user_id + 1 }) := by
  unfold createUser
  rw [if_neg h1, if_neg h2]

theorem recordPrediction_pos (uid : Nat) (a : PredictionAttrs) (pp : Rat)
    (now : Nat) (st : Store)
    (h : st.users.any (fun u => u.id = uid) = true) :
    recordPrediction uid a pp now st =
      (.ok st.next_prediction_id,
        { st with
          predictions :=
              st.predictions ++ [⟨st.next_prediction_id, uid, a.age, a.gender,
                a.bmi, a.children, a.smoker, a.region, pp, now⟩],
          next_prediction_id := st.next_prediction_id + 1 }) := by
  unfold recordPrediction
  rw [if_pos h]

theorem recordPrediction_neg (uid : Nat) (a : PredictionAttrs) (pp : Rat)
    (now : Nat) (st : Store)
    (h : ¬ st.users.any (fun u => u.id = uid) = true) :
    recordPrediction uid a pp now st = (.error .foreignKeyViolation, st) := by
  unfold recordPrediction
  rw [if_neg h]

theorem refIntegrity_createUser (un em ph : String) (now : Nat) (st : Store)
    (h : refIntegrity st) : refIntegrity (createUser un em ph now st).2 := by
  by_cases h1 : st.users.any (fun u => u.username = un) = true
  · rw [createUser_dupUsername un em ph now st h1]
    exact h
  · by_cases h2 : st.users.any (fun u => u.email = em) = true
    · rw [createUser_dupEmail un em ph now st h1 h2]
      exact h
    · rw [createUser_fresh un em ph now st h1 h2]
      intro p hp
      obtain ⟨u, hu, hid⟩ := h p hp
      exact ⟨u, List.mem_append_left _ hu, hid⟩

theorem refIntegrity_recordPrediction (uid : Nat) (a : PredictionAttrs)
    (pp : Rat) (now : Nat) (st : Store)
    (h : refIntegrity st) : refIntegrity (recordPrediction uid a pp now st).2 := by
  by_cases hc : st.users.any (fun u => u.id = uid) = true
  · have hex : ∃ u ∈ st.users, u.id = uid := by
      simpa using hc
    obtain ⟨u0, hu0, hid0⟩ := hex
    rw [recordPrediction_pos uid a pp now st hc]
    intro p hp
    rcases List.mem_append.mp hp with hold | hnew
    · obtain ⟨u, hu, hid⟩ := h p hold
      exact ⟨u, hu, hid⟩
    · have hpe : p = ⟨st.next_prediction_id, uid, a.age, a.gender, a.bmi,
        a.children, a.smoker, a.region, pp, now⟩ := by
        simpa using hnew
      subst hpe
      exact ⟨u0, hu0, hid0⟩
  · rw [recordPrediction_neg uid a pp now st hc]
    exact h

theorem refIntegrity_deleteUser (uid : Nat) (st : Store)
    (h : refIntegrity st) : refIntegrity (deleteUser uid st) := by
  intro p hp
  simp only [deleteUser, List.mem_filter, decide_eq_true_eq] at hp
  obtain ⟨hmem, hne⟩ := hp
  obtain ⟨u, hu, hid⟩ := h p hmem
  refine ⟨u, ?_, hid⟩
  simp only [deleteUser, List.mem_filter, decide_eq_true_eq]
  exact ⟨hu, by rw [hid]; exact hne⟩

theorem reachable_refIntegrity {st : Store} (h : Reachable st) : refIntegrity st := by
  induction h with
  | init =>
      intro p hp
      simp [Store.empty] at hp
  | createUserStep un em ph now _ ih =>
      exact refIntegrity_createUser un em ph now _ ih
  | recordPredictionStep uid a pp now _ ih =>
      exact refIntegrity_recordPrediction uid a pp now _ ih
  | deleteUserStep uid _ ih =>
      exact refIntegrity_deleteUser uid _ ih

/-- C1: in every reachable store state every predictions row references an
existing users row, and `recordPrediction` with an unknown `userId` fails
with `ForeignKeyViolation` and leaves the store unchanged (inserts
nothing). -/
theorem predictions_referential_integrity :
    (∀ st : Store, Reachable st →
      ∀ p ∈ st.predictions, ∃ u ∈ st.users, u.id = p.user_id) ∧
    (∀ (st : Store) (uid : Nat) (a : PredictionAttrs) (pp : Rat) (now : Nat),
      (∀ u ∈ st.users, u.id ≠ uid) →
      (recordPrediction uid a pp now st).1 = .error .foreignKeyViolation ∧
      (recordPrediction uid a pp now st).2 = st) := by
  constructor
  · exact fun _ h => reachable_refIntegrity h
  · intro st uid a pp now hno
    have hc : ¬ st.users.any (fun u => u.id = uid) = true := by
      simp only [List.any_eq_true, decide_eq_true_eq]
      rintro ⟨u, hu, heq⟩
      exact hno u hu heq
    rw [recordPrediction_neg uid a pp now st hc]
    exact ⟨rfl, rfl⟩

theorem predictions_referential_integrity_witness :
    (∃ u ∈ demoStore.users, u.id = demoPrediction.user_id) ∧
    (recordPrediction 2 attrs0 26000 9 Store.empty).1 = .error .foreignKeyViolation ∧
    (recordPrediction 2 attrs0 26000 9 Store.empty).2 = Store.empty := by
  refine ⟨predictions_referential_integrity.1 demoStore ?_ demoPrediction ?_,
    (predictions_referential_integrity.2 Store.empty 2 attrs0 26000 9 ?_).1,
    (predictions_referential_integrity.2 Store.empty 2 attrs0 26000 9 ?_).2⟩
  · exact Reachable.recordPredictionStep 1 attrs0 26000 5
      (Reachable.createUserStep "alice" "alice@example.com" "h1" 0 Reachable.init)
  · decide
  · intro u hu
    simp [Store.empty] at hu
  · intro u hu
    simp [Store.empty] at hu

/-- C2: `deleteUser(u.id)` removes `u`, removes exactly the predictions rows
whose `user_id` equals `u.id`, keeps every other users row, and keeps the
remaining predictions rows unchanged and in their original order. -/
theorem deleteUser_cascade_frame (st : Store) (u : User) (_hu : u ∈ st.users) :
    u ∉ (deleteUser u.id st).users ∧
    (∀ p : Prediction, p ∈ (deleteUser u.id st).predictions ↔
      p ∈ st.predictions ∧ p.user_id ≠ u.id) ∧
    (∀ v : User, v ∈ (deleteUser u.id st).users ↔
      v ∈ st.users ∧ v.id ≠ u.id) ∧
    (deleteUser u.id st).predictions.Sublist st.predictions := by
  refine ⟨?_, ?_, ?_, ?_⟩
  · intro hmem
    simp only [deleteUser, List.mem_filter, decide_eq_true_eq] at hmem
    exact hmem.2 rfl
  · intro p
    simp [deleteUser, List.mem_filter]
  · intro v
    simp [deleteUser, List.mem_filter]
  · simp only [deleteUser]
    exact List.filter_sublist _

theorem deleteUser_cascade_frame_witness :
    demoUser ∉ (deleteUser demoUser.id demoStore).users ∧
    (∀ p : Prediction, p ∈ (deleteUser demoUser.id demoStore).predictions ↔
      p ∈ demoStore.predictions ∧ p.user_id ≠ demoUser.id) ∧
    (∀ v : User, v ∈ (deleteUser demoUser.id demoStore).users ↔
      v ∈ demoStore.users ∧ v.id ≠ demoUser.id) ∧
    (deleteUser demoUser.id demoStore).predictions.Sublist demoStore.predictions :=
  deleteUser_cascade_frame demoStore demoUser (by decide)

/-- C3: `createUser` with an already-present username fails with
`DuplicateUsername`; with a fresh username but already-present email it
fails with `DuplicateEmail`; in every failure case the store (in particular
the users table) is unchanged. -/
theorem createUser_uniqueness (st : Store) (un em ph : String) (now : Nat) :
    ((∃ u ∈ st.users, u.username = un) →
      (createUser un em ph now st).1 = .error .duplicateUsername) ∧
    ((∀ u ∈ st.users, u.username ≠ un) → (∃ u ∈ st.users, u.email = em) →
      (createUser un em ph now st).1 = .error .duplicateEmail) ∧
    (∀ e : CreateUserError, (createUser un em ph now st).1 = .error e →
      (createUser un em ph now st).2 = st) := by
  refine ⟨?_, ?_, ?_⟩
  · rintro ⟨u, hu, he⟩
    have hc : st.users.any (fun u => u.username = un) = true := by
      simp only [List.any_eq_true, decide_eq_true_eq]
      exact ⟨u, hu, he⟩
    rw [createUser_dupUsername un em ph now st hc]
  · intro hfresh
    rintro ⟨u, hu, he⟩
    have h1 : ¬ st.users.any (fun u => u.username = un) = true := by
      simp only [List.any_eq_true, decide_eq_true_eq]
      rintro ⟨v, hv, hveq⟩
      exact hfresh v hv hveq
    have h2 : st.users.any (fun u => u.email = em) = true := by
      simp only [List.any_eq_true, decide_eq_true_eq]
      exact ⟨u, hu, he⟩
    rw [createUser_dupEmail un em ph now st h1 h2]
  · intro e he
    by_cases h1 : st.users.any (fun u => u.username = un) = true
    · rw [createUser_dupUsername un em ph now st h1]
    · by_cases h2 : st.users.any (fun u => u.email = em) = true
      · rw [createUser_dupEmail un em ph now st h1 h2]
      · rw [createUser_fresh un em ph now st h1 h2] at he
        simp at he

theorem createUser_uniqueness_witness :
    (createUser "alice" "new@example.com" "p2" 7 demoStore).1 =
      .error .duplicateUsername ∧
    (createUser "bob" "alice@example.com" "p2" 7 demoStore).1 =
      .error .duplicateEmail ∧
    (createUser "alice" "new@example.com" "p2" 7 demoStore).2 = demoStore := by
  refine ⟨(createUser_uniqueness demoStore "alice" "new@example.com" "p2" 7).1 ?_,
    (createUser_uniqueness demoStore "bob" "alice@example.com" "p2" 7).2.1 ?_ ?_,
    (createUser_uniqueness demoStore "alice" "new@example.com" "p2" 7).2.2
      .duplicateUsername ?_⟩
  · decide
  · decide
  · decide
  · rfl

/-- C4: `listPredictionsForUser(userId)` returns exactly the predictions
rows whose `user_id` equals `userId` (as a permutation of the filtered
table, hence the same rows with multiplicity), in non-decreasing
`created_at` order. -/
theorem listPredictionsForUser_spec (st : Store) (uid : Nat) :
    List.Perm (listPredictionsForUser uid st)
      (st.predictions.filter (fun p => p.user_id = uid)) ∧
    (∀ p : Prediction, p ∈ listPredictionsForUser uid st ↔
      p ∈ st.predictions ∧ p.user_id = uid) ∧
    List.Pairwise createdAtLe (listPredictionsForUser uid st) := by
  refine ⟨?_, ?_, ?_⟩
  · simp only [listPredictionsForUser]
    exact List.perm_insertionSort createdAtLe _
  · intro p
    simp only [listPredictionsForUser]
    rw [(List.perm_insertionSort createdAtLe _).mem_iff]
    simp [List.mem_filter]
  · simp only [listPredictionsForUser]
    exact List.sorted_insertionSort createdAtLe _

theorem validateAge_some (n : Int) (st : FieldState) :
    validateAge (some n) st =
      if n < 18 ∨ 100 < n then
        { st with is_invalid := true, is_valid := false,
                  feedback := "Age must be between 18 and 100 years." }
      else
        { st with is_valid := true, is_invalid := false, feedback := "" } := by
  simp only [validateAge, jsLtI, jsGtI, jsGeI, jsLeI]
  by_cases h : n < 18 ∨ 100 < n
  · rw [if_pos (by simpa using h), if_pos h]
  · have h2 : 18 ≤ n ∧ n ≤ 100 := by omega
    rw [if_neg (by simpa using h), if_pos (by simpa using h2), if_neg h]

/-- C5: `validateAge` flags the field invalid with the message "Age must be
between 18 and 100 years." exactly when the parsed integer lies outside
[18, 100], and flags it valid exactly when the parsed integer lies in
[18, 100]; age 17 is rejected and age 45 accepted. -/
theorem validateAge_range :
    (∀ (n : Int) (st : FieldState),
      (((validateAge (some n) st).is_invalid = true ∧
        (validateAge (some n) st).feedback =
          "Age must be between 18 and 100 years." ∧
        (validateAge (some n) st).is_valid = false) ↔ (n < 18 ∨ 100 < n)) ∧
      (((validateAge (some n) st).is_valid = true ∧
        (validateAge (some n) st).is_invalid = false) ↔ (18 ≤ n ∧ n ≤ 100))) ∧
    (validateAge (some 17) st0).is_invalid = true ∧
    (validateAge (some 45) st0).is_valid = true := by
  refine ⟨fun n st => ?_, by decide, by decide⟩
  by_cases h : n < 18 ∨ 100 < n
  · rw [validateAge_some, if_pos h]
    refine ⟨⟨fun _ => h, fun _ => ⟨rfl, rfl, rfl⟩⟩,
      ⟨fun hx => absurd hx.1 (by simp), fun hn => by exfalso; omega⟩⟩
  · rw [validateAge_some, if_neg h]
    refine ⟨⟨fun hx => absurd hx.1 (by simp), fun hd => by exfalso; omega⟩,
      ⟨fun _ => by omega, fun _ => ⟨rfl, rfl⟩⟩⟩

theorem validateBMI_some (b : Rat) (st : FieldState) :
    validateBMI (some b) st =
      if b < 10 ∨ 50 < b then
        { st with is_invalid := true, is_valid := false,
                  feedback := "BMI must be between 10 and 50." }
      else
        { st with is_valid := true, is_invalid := false,
                  feedback := getBMICategory b,
                  borderColor := some (if b < 18.5 then "#17a2b8"
                    else if b < 25 then "#28a745"
                    else if b < 30 then "#ffc107"
                    else "#dc3545") } := by
  simp only [validateBMI, jsLtQ, jsGtQ, jsGeQ, jsLeQ, Option.getD_some,
    Bool.or_eq_true, Bool.and_eq_true, decide_eq_true_eq]
  by_cases h : b < 10 ∨ 50 < b
  · rw [if_pos h, if_pos h]
  · have h2 : 10 ≤ b ∧ b ≤ 50 :=
      ⟨le_of_not_lt (fun hc => h (Or.inl hc)),
       le_of_not_lt (fun hc => h (Or.inr hc))⟩
    rw [if_neg h, if_neg h, if_pos h2]

/-- C6: `validateBMI` rejects exactly when the parsed number lies outside
[10, 50] and accepts when it lies in [10, 50]; on acceptance the feedback
is `getBMICategory`, which returns "Underweight" below 18.5, "Normal
weight" on [18.5, 25), "Overweight" on [25, 30) and "Obese" from 30 on;
BMI 52 is rejected and BMI 22.4 accepted with category "Normal weight". -/
theorem validateBMI_range_category :
    (∀ (b : Rat) (st : FieldState),
      ((validateBMI (some b) st).is_invalid = true ↔ (b < 10 ∨ 50 < b)) ∧
      ((validateBMI (some b) st).is_valid = true ↔ (10 ≤ b ∧ b ≤ 50)) ∧
      ((10 ≤ b ∧ b ≤ 50) →
        (validateBMI (some b) st).feedback = getBMICategory b)) ∧
    (∀ b : Rat,
      (b < 18.5 → getBMICategory b = "Underweight") ∧
      (18.5 ≤ b → b < 25 → getBMICategory b = "Normal weight") ∧
      (25 ≤ b → b < 30 → getBMICategory b = "Overweight") ∧
      (30 ≤ b → getBMICategory b = "Obese")) ∧
    (validateBMI (some 52) st0).is_invalid = true ∧
    (validateBMI (some 22.4) st0).is_valid = true ∧
    (validateBMI (some 22.4) st0).feedback = "Normal weight" := by
  have hcat : ∀ b : Rat,
      (b < 18.5 → getBMICategory b = "Underweight") ∧
      (18.5 ≤ b → b < 25 → getBMICategory b = "Normal weight") ∧
      (25 ≤ b → b < 30 → getBMICategory b = "Overweight") ∧
      (30 ≤ b → getBMICategory b = "Obese") := by
    intro b
    refine ⟨fun h1 => ?_, fun h1 h2 => ?_, fun h1 h2 => ?_, fun h1 => ?_⟩
    · rw [getBMICategory, if_pos h1]
    · rw [getBMICategory, if_neg (not_lt.mpr h1), if_pos h2]
    · rw [getBMICategory, if_neg (not_lt.mpr (by linarith)),
        if_neg (not_lt.mpr h1), if_pos h2]
    · rw [getBMICategory, if_neg (not_lt.mpr (by linarith)),
        if_neg (not_lt.mpr (by linarith)), if_neg (not_lt.mpr h1)]
  have h224 : ¬ ((22.4 : Rat) < 10 ∨ (50 : Rat) < 22.4) := by norm_num
  refine ⟨fun b st => ?_, hcat, ?_, ?_, ?_⟩
  · by_cases h : b < 10 ∨ 50 < b
    · rw [validateBMI_some, if_pos h]
      refine ⟨⟨fun _ => h, fun _ => rfl⟩,
        ⟨fun hx => absurd hx (by simp), fun hx => ?_⟩, fun hx => ?_⟩
      · exfalso
        rcases h with h1 | h1
        · exact absurd h1 (not_lt.mpr hx.1)
        · exact absurd h1 (not_lt.mpr hx.2)
      · exfalso
        rcases h with h1 | h1
        · exact absurd h1 (not_lt.mpr hx.1)
        · exact absurd h1 (not_lt.mpr hx.2)
    · rw [validateBMI_some, if_neg h]
      exact ⟨⟨fun hx => absurd hx (by simp), fun hd => absurd hd h⟩,
        ⟨fun _ => ⟨le_of_not_lt (fun hc => h (Or.inl hc)),
          le_of_not_lt (fun hc => h (Or.inr hc))⟩, fun _ => rfl⟩,
        fun _ => rfl⟩
  · rw [validateBMI_some, if_pos (by norm_num)]
  · rw [validateBMI_some, if_neg h224]
  · rw [validateBMI_some, if_neg h224]
    exact (hcat 22.4).2.1 (by norm_num) (by norm_num)

theorem validateBMI_range_category_witness :
    getBMICategory 16 = "Underweight" ∧
    getBMICategory 20 = "Normal weight" ∧
    getBMICategory 27 = "Overweight" ∧
    getBMICategory 35 = "Obese" ∧
    (validateBMI (some 20) st0).feedback = getBMICategory 20 :=
  ⟨(validateBMI_range_category.2.1 16).1 (by norm_num),
   (validateBMI_range_category.2.1 20).2.1 (by norm_num) (by norm_num),
   (validateBMI_range_category.2.1 27).2.2.1 (by norm_num) (by norm_num),
   (validateBMI_range_category.2.1 35).2.2.2 (by norm_num),
   (validateBMI_range_category.1 20 st0).2.2 (by norm_num)⟩

theorem tailMatch_iff (l : List Char) :
    tailMatch l = true ↔ l ≠ [] ∧ l.all isAtomChar = true := by
  cases l with
  | nil => simp [tailMatch]
  | cons c cs => simp [tailMatch]

theorem dotTail_iff (l : List Char) :
    dotTail l = true ↔ ∃ c, l = '.' :: c ∧ c ≠ [] ∧ c.all isAtomChar = true := by
  cases l with
  | nil => simp [dotTail]
  | cons x xs =>
      simp only [dotTail, Bool.and_eq_true, beq_iff_eq, tailMatch_iff]
      constructor
      · rintro ⟨rfl, hne, hall⟩
        exact ⟨xs, rfl, hne, hall⟩
      · rintro ⟨c, heq, hne, hall⟩
        obtain ⟨h1, h2⟩ : x = '.' ∧ xs = c := by
          injection heq with ha hb
          exact ⟨ha, hb⟩
        subst h1
        subst h2
        exact ⟨rfl, hne, hall⟩

theorem atDomain_iff (l : List Char) :
    atDomain l = true ↔ ∃ d, l = '@' :: d ∧ domainMatch d = true := by
  cases l with
  | nil => simp [atDomain]
  | cons x xs =>
      simp only [atDomain, Bool.and_eq_true, beq_iff_eq]
      constructor
      · rintro ⟨rfl, hd⟩
        exact ⟨xs, rfl, hd⟩
      · rintro ⟨d, heq, hd⟩
        obtain ⟨h1, h2⟩ : x = '@' ∧ xs = d := by
          injection heq with ha hb
          exact ⟨ha, hb⟩
        subst h1
        subst h2
        exact ⟨rfl, hd⟩

theorem domainMatch_iff (l : List Char) :
    domainMatch l = true ↔ ∃ b c, l = b ++ '.' :: c ∧ b ≠ [] ∧
      b.all isAtomChar = true ∧ c ≠ [] ∧ c.all isAtomChar = true := by
  induction l with
  | nil =>
      constructor
      · intro h
        simp [domainMatch] at h
      · rintro ⟨b, c, heq, hb, -, -, -⟩
        exact absurd (List.append_eq_nil.mp heq.symm).1 hb
  | cons x xs ih =>
      simp only [domainMatch, Bool.and_eq_true, Bool.or_eq_true]
      constructor
      · rintro ⟨hx, hdot | hdom⟩
        · obtain ⟨c, rfl, hne, hall⟩ := (dotTail_iff xs).mp hdot
          exact ⟨[x], c, rfl, by simp, by simp [hx], hne, hall⟩
        · obtain ⟨b, c, rfl, hb, hball, hc, hcall⟩ := ih.mp hdom
          refine ⟨x :: b, c, rfl, by simp, ?_, hc, hcall⟩
          simp only [List.all_cons, Bool.and_eq_true]
          exact ⟨hx, hball⟩
      · rintro ⟨b, c, heq, hb, hball, hc, hcall⟩
        cases b with
        | nil => exact absurd rfl hb
        | cons y ys =>
            obtain ⟨h1, h2⟩ : y = x ∧ xs = ys ++ '.' :: c := by
              rw [List.cons_append] at heq
              injection heq with ha hb2
              exact ⟨ha.symm, hb2⟩
            subst h1
            subst h2
            simp only [List.all_cons, Bool.and_eq_true] at hball
            refine ⟨hball.1, ?_⟩
            cases ys with
            | nil =>
                left
                exact (dotTail_iff _).mpr ⟨c, rfl, hc, hcall⟩
            | cons z zs =>
                right
                refine ih.mpr ⟨z :: zs, c, rfl, by simp, ?_, hc, hcall⟩
                simp only [List.all_cons, Bool.and_eq_true] at hball ⊢
                exact hball.2

theorem emailMatch_iff (l : List Char) :
    emailMatch l = true ↔ ∃ a d, l = a ++ '@' :: d ∧ a ≠ [] ∧
      a.all isAtomChar = true ∧ domainMatch d = true := by
  induction l with
  | nil =>
      constructor
      · intro h
        simp [emailMatch] at h
      · rintro ⟨a, d, heq, ha, -, -⟩
        exact absurd (List.append_eq_nil.mp heq.symm).1 ha
  | cons x xs ih =>
      simp only [emailMatch, Bool.and_eq_true, Bool.or_eq_true]
      constructor
      · rintro ⟨hx, hat | hem⟩
        · obtain ⟨d, rfl, hd⟩ := (atDomain_iff xs).mp hat
          exact ⟨[x], d, rfl, by simp, by simp [hx], hd⟩
        · obtain ⟨a, d, rfl, ha, hall, hd⟩ := ih.mp hem
          refine ⟨x :: a, d, rfl, by simp, ?_, hd⟩
          simp only [List.all_cons, Bool.and_eq_true]
          exact ⟨hx, hall⟩
      · rintro ⟨a, d, heq, ha, hall, hd⟩
        cases a with
        | nil => exact absurd rfl ha
        | cons y ys =>
            obtain ⟨h1, h2⟩ : y = x ∧ xs = ys ++ '@' :: d := by
              rw [List.cons_append] at heq
              injection heq with ha2 hb2
              exact ⟨ha2.symm, hb2⟩
            subst h1
            subst h2
            simp only [List.all_cons, Bool.and_eq_true] at hall
            refine ⟨hall.1, ?_⟩
            cases ys with
            | nil =>
                left
                exact (atDomain_iff _).mpr ⟨d, rfl, hd⟩
            | cons z zs =>
                right
                refine ih.mpr ⟨z :: zs, d, rfl, by simp, ?_, hd⟩
                simp only [List.all_cons, Bool.and_eq_true] at hall ⊢
                exact hall.2

theorem validateEmail_eq (s : String) (st : FieldState) :
    validateEmail s st =
      if emailMatch s.data then
        { st with is_valid := true, is_invalid := false, feedback := "" }
      else
        { st with is_invalid := true, is_valid := false,
                  feedback := "Please enter a valid email address." } := by
  unfold validateEmail
  cases hb : emailMatch s.data with
  | true => simp [hb]
  | false => simp [hb]

/-- C7: `validateEmail` accepts exactly the strings of shape
`local@domain.tld` - a non-empty run of non-whitespace non-`@` characters,
an `@`, another such run, a `.`, and a final such run (the regex
`/^[^\s@]+@[^\s@]+\.[^\s@]+$/`); "a@b" is rejected and "a@b.com"
accepted. -/
theorem validateEmail_shape :
    (∀ (s : String) (st : FieldState),
      (validateEmail s st).is_valid = true ↔
        ∃ a b c : List Char, s.data = a ++ '@' :: (b ++ '.' :: c) ∧
          a ≠ [] ∧ b ≠ [] ∧ c ≠ [] ∧
          a.all isAtomChar = true ∧ b.all isAtomChar = true ∧
          c.all isAtomChar = true) ∧
    (validateEmail "a@b" st0).is_invalid = true ∧
    (validateEmail "a@b.com" st0).is_valid = true := by
  refine ⟨fun s st => ?_, by decide, by decide⟩
  rw [validateEmail_eq]
  by_cases h : emailMatch s.data = true
  · rw [if_pos h]
    constructor
    · intro _
      obtain ⟨a, d, heq, ha, hall, hd⟩ := (emailMatch_iff _).mp h
      obtain ⟨b, c, rfl, hb, hball, hc, hcall⟩ := (domainMatch_iff _).mp hd
      exact ⟨a, b, c, heq, ha, hb, hc, hall, hball, hcall⟩
    · intro _
      rfl
  · rw [if_neg h]
    constructor
    · intro hx
      exact absurd hx (by simp)
    · rintro ⟨a, b, c, heq, ha, hb, hc, hall, hball, hcall⟩
      exact absurd ((emailMatch_iff _).mpr ⟨a, b ++ '.' :: c, heq, ha, hall,
        (domainMatch_iff _).mpr ⟨b, c, rfl, hb, hball, hc, hcall⟩⟩) h

/-- C10: a non-numeric age or BMI input (`parseInt` / `parseFloat` gives
`NaN`, e.g. on the empty string) takes neither the invalid nor the valid
branch: the field state is returned exactly as it was. -/
theorem nonNumeric_input_inert :
    (∀ st : FieldState, validateAge none st = st) ∧
    (∀ st : FieldState, validateBMI none st = st) ∧
    parseIntJS "" = none ∧
    parseFloatJS "" = none := by
  refine ⟨fun st => rfl, fun st => rfl, rfl, rfl⟩

theorem validateField_truthy_not_invalid (f : Field)
    (ht : truthy (validateField f).1 = true) :
    ((validateField f).2).state.is_invalid = false := by
  dsimp only [validateField] at ht ⊢
  split_ifs at ht ⊢ <;> first
    | rfl
    | simp [truthy] at ht

/-- C8: a prediction POST is emitted only by the submit flow, and only when
every form field validated truthily under `validateField`; in the submitted
snapshot no field (in particular no required field) carries the
`is-invalid` class. -/
theorem post_only_when_valid (form : List Field) (a : ClientAct)
    (req : PostRequest) (form2 : List Field)
    (h : clientStep form a = (some req, form2)) :
    req.form = form2 ∧
    (∀ f ∈ form, truthy (validateField f).1 = true) ∧
    (∀ f ∈ form2, f.state.is_invalid = false) := by
  cases a with
  | edit i v =>
      simp [clientStep] at h
  | submit =>
      dsimp only [clientStep, submitFlow] at h
      by_cases hall : (form.map validateField).all (fun r => truthy r.1) = true
      · rw [if_pos hall] at h
        injection h with ha hb
        injection ha with ha2
        refine ⟨by rw [← ha2]; exact hb, ?_, ?_⟩
        · intro g hg
          exact List.all_eq_true.mp hall (validateField g)
            (List.mem_map.mpr ⟨g, hg, rfl⟩)
        · intro f hf
          rw [← hb] at hf
          simp only [List.mem_map] at hf
          obtain ⟨r, hr, rfl⟩ := hf
          obtain ⟨g, hg, rfl⟩ := hr
          exact validateField_truthy_not_invalid g
            (List.all_eq_true.mp hall (validateField g)
              (List.mem_map.mpr ⟨g, hg, rfl⟩))
      · rw [if_neg hall] at h
        exact absurd h (by simp)

theorem post_only_when_valid_witness :
    (⟨"/user/api/predict", demoForm2⟩ : PostRequest).form = demoForm2 ∧
    (∀ f ∈ demoForm, truthy (validateField f).1 = true) ∧
    (∀ f ∈ demoForm2, f.state.is_invalid = false) :=
  post_only_when_valid demoForm .submit ⟨"/user/api/predict", demoForm2⟩
    demoForm2 (by decide)

/-- C9 counterexample: on a response with `success: false` and an error
field that is present but empty, the code shows "Prediction failed" (the
JS `||` treats the empty string as falsy), not the response's error
field. -/
theorem submitPredictionAJAX_empty_error_cex :
    (submitPredictionAJAX (.ok ⟨false, none, some ""⟩)).1 =
      [Message.danger "Prediction failed"] ∧
    ("Prediction failed" : String) ≠ "" := by
  exact ⟨rfl, by decide⟩

/-- C9 (amended): a `success: true` response shows a success message
containing `formatted_prediction`; a `success: false` response shows the
response's error field when it is present and non-empty and "Prediction
failed" when it is absent or empty; a network/parse failure is caught and
shows "Network error occurred"; in every case exactly one fetch is made
(no retry). -/
theorem submitPredictionAJAX_spec :
    (∀ (fp : String) (e : Option String),
      (submitPredictionAJAX (.ok ⟨true, some fp, e⟩)).1 =
        [.success ("Predicted Premium: " ++ fp)]) ∧
    (∀ (fp : Option String) (msg : String), msg ≠ "" →
      (submitPredictionAJAX (.ok ⟨false, fp, some msg⟩)).1 = [.danger msg]) ∧
    (∀ fp : Option String,
      (submitPredictionAJAX (.ok ⟨false, fp, none⟩)).1 =
        [.danger "Prediction failed"]) ∧
    (∀ fp : Option String,
      (submitPredictionAJAX (.ok ⟨false, fp, some ""⟩)).1 =
        [.danger "Prediction failed"]) ∧
    (submitPredictionAJAX .networkError).1 =
      [.danger "Network error occurred"] ∧
    (∀ o : FetchOutcome, (submitPredictionAJAX o).2 = 1) := by
  refine ⟨fun fp e => rfl, fun fp msg hne => ?_, fun fp => rfl, fun fp => rfl,
    rfl, fun o => ?_⟩
  · dsimp only [submitPredictionAJAX, jsOrDefault]
    rw [if_neg (show ¬((msg == "") = true) by simpa using hne)]
    rfl
  · rcases o with ⟨d⟩ | _
    · dsimp only [submitPredictionAJAX]
      by_cases hd : d.success = true
      · rw [if_pos hd]
      · rw [if_neg hd]
    · rfl

theorem submitPredictionAJAX_spec_witness :
    (submitPredictionAJAX (.ok ⟨false, none, some "boom"⟩)).1 =
      [Message.danger "boom"] :=
  submitPredictionAJAX_spec.2.1 none "boom" (by decide)

end MIPP
